import Mathlib

/-!
# diuca: ResponseSpectraCalculator and IceMaterial

A shallow embedding of

* `src/vectorpostprocessors/ResponseSpectraCalculator.C`
  (`validParams`, the constructor, `initialSetup`, `initialize`, `execute`), and
* `src/materials/IceMaterial.C` (`computeQpProperties`),

followed by the properties established about them.

`Real` values are elements of a type `R` with the comparisons of a C++ `double`
(class `MooseReal`): the numbers of a linearly ordered field are one instance, the
same numbers with a NaN (`Double`) another.  Vectors (`std::vector<Real>`,
`VectorPostprocessorValue`) are lists.  A `mooseError`, an
index past the end of a `std::vector` and the dereference of a null pointer are
all `Except.error`.
-/

namespace Diuca

/-! ## Real -/

/-- `Real` in the sources is a C++ `double`.  The sources only compare such values
with each other and with `0.0`; this class holds the comparisons `<=` and `<` (`>=` and
`>` are their converses), the value `0.0`, and the laws these obey on doubles, where a
comparison with a NaN is false: `a <= a` holds exactly of the values that are not NaN,
and on those the order is total. -/
class MooseReal (R : Type) where
  zero : R
  le : R → R → Prop
  lt : R → R → Prop
  decLE : ∀ a b, Decidable (le a b)
  decLT : ∀ a b, Decidable (lt a b)
  not_le_of_lt : ∀ a b, lt a b → ¬ le b a
  lt_of_not_le : ∀ a b, le a a → le b b → ¬ le b a → lt a b
  lt_trans : ∀ a b c, lt a b → lt b c → lt a c
  zero_le_zero : le zero zero

instance (priority := low) instZeroOfMooseReal {R : Type} [MooseReal R] : Zero R :=
  ⟨MooseReal.zero⟩

instance (priority := low) instLEOfMooseReal {R : Type} [MooseReal R] : LE R :=
  ⟨MooseReal.le⟩

instance (priority := low) instLTOfMooseReal {R : Type} [MooseReal R] : LT R :=
  ⟨MooseReal.lt⟩

instance (priority := low) instDecidableLEOfMooseReal {R : Type} [MooseReal R] (a b : R) :
    Decidable (a ≤ b) :=
  MooseReal.decLE a b

instance (priority := low) instDecidableLTOfMooseReal {R : Type} [MooseReal R] (a b : R) :
    Decidable (a < b) :=
  MooseReal.decLT a b

/-- The value is a number, not a NaN: the C++ test `x <= x`. -/
def IsNumber {R : Type} [MooseReal R] (x : R) : Prop := x ≤ x

instance instDecidableIsNumber {R : Type} [MooseReal R] (x : R) : Decidable (IsNumber x) :=
  MooseReal.decLE x x

/-- The numbers of a linearly ordered field, without any NaN. -/
instance (priority := low) instMooseRealOfField {R : Type} [LinearOrderedField R] :
    MooseReal R where
  zero := 0
  le := fun a b => a ≤ b
  lt := fun a b => a < b
  decLE := fun a b => inferInstanceAs (Decidable (a ≤ b))
  decLT := fun a b => inferInstanceAs (Decidable (a < b))
  not_le_of_lt := fun _ _ h => not_le.2 h
  lt_of_not_le := fun _ _ _ _ h => not_le.1 h
  lt_trans := fun _ _ _ h1 h2 => lt_trans h1 h2
  zero_le_zero := le_refl 0

/-- A C++ `double` with its NaN: `nan`, or the number `num x`. -/
inductive Double (R : Type) where
  | nan : Double R
  | num (x : R) : Double R

/-- The comparison `a <= b` of doubles: false as soon as one side is a NaN. -/
def Double.le {R : Type} [LE R] : Double R → Double R → Prop
  | .num x, .num y => x ≤ y
  | .num _, .nan => False
  | .nan, _ => False

/-- The comparison `a < b` of doubles: false as soon as one side is a NaN. -/
def Double.lt {R : Type} [LT R] : Double R → Double R → Prop
  | .num x, .num y => x < y
  | .num _, .nan => False
  | .nan, _ => False

/-- Doubles over a linearly ordered field, with the NaN. -/
instance instMooseRealDouble {R : Type} [LinearOrderedField R] : MooseReal (Double R) where
  zero := .num 0
  le := Double.le
  lt := Double.lt
  decLE := fun a b =>
    match a, b with
    | .num x, .num y => inferInstanceAs (Decidable (x ≤ y))
    | .num _, .nan => isFalse (fun h => h)
    | .nan, _ => isFalse (fun h => h)
  decLT := fun a b =>
    match a, b with
    | .num x, .num y => inferInstanceAs (Decidable (x < y))
    | .num _, .nan => isFalse (fun h => h)
    | .nan, _ => isFalse (fun h => h)
  not_le_of_lt := fun a b h =>
    match a, b, h with
    | .num _, .num _, h => not_le.2 h
  lt_of_not_le := fun a b ha hb h =>
    match a, b, ha, hb, h with
    | .num _, .num _, _, _, h => not_le.1 h
  lt_trans := fun a b c h1 h2 =>
    match a, b, c, h1, h2 with
    | .num _, .num _, .num _, h1, h2 => lt_trans h1 h2
  zero_le_zero := le_refl (0 : R)

/-! ## Framework pieces used by the calculator -/

/-- The vectors declared by one vector postprocessor, looked up by name: `none` is a
name that has not been declared.  A reference or pointer to a declared vector is the
name it was declared under. -/
abbrev VectorStore (R : Type) := String → Option (List R)

/-- Framework `declareVector(name)`: the store after the declaration.  The returned
reference is `name` itself.  Declaring a name a second time yields the vector that is
already stored under it. -/
def declareVector {R : Type} (vs : VectorStore R) (name : String) : VectorStore R :=
  match vs name with
  | some _ => vs
  | none => fun k => if k = name then some [] else vs k

/-- Assignment `*ptr = v` (or `ref = v`) to a declared vector. -/
def assign {R : Type} (vs : VectorStore R) (ptr : String) (v : List R) : VectorStore R :=
  fun k => if k = ptr then some v else vs k

/-- Subscript `v[i]` of a `std::vector`; past the end it is an error. -/
def index {α : Type} (v : List α) (i : Nat) : Except String α :=
  match v[i]? with
  | some x => .ok x
  | none => .error "index out of range"

/-- Dereference `*p` of a pointer; `none` is the null pointer. -/
def deref {α : Type} (p : Option α) : Except String α :=
  match p with
  | some x => .ok x
  | none => .error "null pointer dereference"

/-- `v.resize(n)`: keeps the first `n` elements and pads with value-initialised ones. -/
def resize {α : Type} (v : List α) (n : Nat) (d : α) : List α :=
  v.take n ++ List.replicate (n - v.length) d

/-- The loop `for (std::size_t i = 0; i < n; ++i) body(i)`, threading the state:
iterations `0 .. n-1` in increasing order, stopping at the first error. -/
def forLoop {σ : Type} (n : Nat) (body : Nat → σ → Except String σ) (s : σ) :
    Except String σ :=
  match n with
  | 0 => .ok s
  | k + 1 => forLoop k body s >>= body k

/-- The `ResponseHistoryBuilder` vector postprocessor the calculator reads: its `time`
vector and, per history, the name and the vector of values.  `getHistoryNames()` and
`getHistories()` are the two parallel vectors built from the entries.  The builder is
taken with the complete histories it holds when the calculator executes
(`contains_complete_history`, `execute_on = EXEC_FINAL`). -/
structure ResponseHistoryBuilder (R : Type) where
  time : List R
  entries : List (String × List R)

/-- Translation of `ResponseHistoryBuilder::getHistoryNames()`. -/
def ResponseHistoryBuilder.getHistoryNames {R : Type} (hb : ResponseHistoryBuilder R) :
    List String :=
  hb.entries.map Prod.fst

/-- Translation of `ResponseHistoryBuilder::getHistories()`: a pointer to a history
vector is the vector it points to. -/
def ResponseHistoryBuilder.getHistories {R : Type} (hb : ResponseHistoryBuilder R) :
    List (List R) :=
  hb.entries.map Prod.snd

/-- A name identifies its history: entries of the builder with the same name hold the
same vector.  The names are the names of the vectors in the builder. -/
def ResponseHistoryBuilder.NamesIdentifyHistories {R : Type} (hb : ResponseHistoryBuilder R) :
    Prop :=
  ∀ e ∈ hb.entries, ∀ e' ∈ hb.entries, e.1 = e'.1 → e.2 = e'.2

/-- The two functions of `MastodonUtils` called by `execute()`; they are not part of
the translated sources and are parameters of the development.
`regularize(history, time, dt)` and
`responseSpectrum(freq_start, freq_end, freq_num, history_acc, xi, reg_dt)` both
return a `std::vector<std::vector<Real>>`. -/
structure MastodonUtils (R : Type) where
  regularize : List R → List R → R → List (List R)
  responseSpectrum : R → R → Nat → List R → R → R → List (List R)

/-- The shape `execute()` relies on when it subscripts the results of `MastodonUtils`:
`regularize` returns the vectors `[0]`, `[1]` and `responseSpectrum` the vectors
`[0]` .. `[4]`. -/
def MastodonUtils.Returns {R : Type} (mu : MastodonUtils R) : Prop :=
  (∀ h t dt, 2 ≤ (mu.regularize h t dt).length) ∧
    ∀ fs fe n a xi dt, 5 ≤ (mu.responseSpectrum fs fe n a xi dt).length

/-- Every vector returned by `responseSpectrum` has length `freq_num`. -/
def MastodonUtils.ReturnsLength {R : Type} (mu : MastodonUtils R) : Prop :=
  ∀ fs fe n a xi dt, ∀ v ∈ mu.responseSpectrum fs fe n a xi dt, v.length = n

/-- The parameters declared in `ResponseSpectraCalculator::validParams()` that the
object reads. -/
structure InputParameters (R : Type) where
  damping_ratio : R
  start_frequency : R
  end_frequency : R
  num_frequencies : Nat
  regularize_dt : R

/-- The defaults of `validParams()`; `regularize_dt` is required and has none. -/
def validParams {R : Type} [OfScientific R] (regularize_dt : R) : InputParameters R where
  damping_ratio := 0.05
  start_frequency := 0.01
  end_frequency := 100.0
  num_frequencies := 401
  regularize_dt := regularize_dt

/-- The one range check declared in `validParams()`
(`addRequiredRangeCheckedParam<Real>("regularize_dt", "regularize_dt>0.0", ...)`); the
framework evaluates it before the object is constructed. -/
def rangeCheck {R : Type} [MooseReal R] (parameters : InputParameters R) :
    Except String Unit :=
  if parameters.regularize_dt > 0 then .ok ()
  else .error "Range check failed for parameter regularize_dt"

/-- The members of `ResponseSpectraCalculator`.  `_frequency` and `_period` are the
references to the vectors declared as `"frequency"` and `"period"`; `_spectrum` holds
pointers to declared vectors (their names); `_history_acc` holds pointers to the
builder's histories; `vectors` is the store of this object's declared vectors. -/
structure ResponseSpectraCalculator (R : Type) where
  _xi : R
  _freq_start : R
  _freq_end : R
  _freq_num : Nat
  _reg_dt : R
  _history_time : List R
  _history_acc : List (Option (List R))
  _spectrum : List String
  vectors : VectorStore R

namespace ResponseSpectraCalculator

variable {R : Type} [MooseReal R]

/-- The constructor `ResponseSpectraCalculator::ResponseSpectraCalculator`: the member
initialisers, then the three checks in source order.  The messages are those of the
source without the prefix `"Error in " + name() + ". "`. -/
def construct (parameters : InputParameters R) (hb : ResponseHistoryBuilder R) :
    Except String (ResponseSpectraCalculator R) :=
  let _xi := parameters.damping_ratio
  let _freq_start := parameters.start_frequency
  let _freq_end := parameters.end_frequency
  let _freq_num := parameters.num_frequencies
  let _reg_dt := parameters.regularize_dt
  let vectors := declareVector (declareVector (fun _ => none) "frequency") "period"
  let _history_time := hb.time
  if _freq_start >= _freq_end then
    .error "Starting frequency must be less than the ending frequency."
  else if _freq_start <= 0 then
    .error "Start and end frequencies must be positive."
  else if _xi <= 0 then
    .error "Damping ratio must be positive."
  else
    .ok { _xi := _xi, _freq_start := _freq_start, _freq_end := _freq_end,
          _freq_num := _freq_num, _reg_dt := _reg_dt, _history_time := _history_time,
          _history_acc := [], _spectrum := [], vectors := vectors }

/-- Object creation by the framework: the declared range check, then the constructor. -/
def create (parameters : InputParameters R) (hb : ResponseHistoryBuilder R) :
    Except String (ResponseSpectraCalculator R) :=
  rangeCheck parameters >>= fun _ => construct parameters hb

/-- The body of the loop of `initialSetup()` at index `i`. -/
def initialSetupStep (hb : ResponseHistoryBuilder R) (history_names : List String) (i : Nat)
    (c : ResponseSpectraCalculator R) : Except String (ResponseSpectraCalculator R) := do
  let h ← index hb.getHistories i
  let _ ← index c._history_acc i
  let name ← index history_names i
  let vectors := declareVector c.vectors (name ++ "_sd")
  let vectors := declareVector vectors (name ++ "_sv")
  let vectors := declareVector vectors (name ++ "_sa")
  .ok { c with
    _history_acc := c._history_acc.set i (some h)
    _spectrum := c._spectrum ++ [name ++ "_sd", name ++ "_sv", name ++ "_sa"]
    vectors := vectors }

/-- Translation of `ResponseSpectraCalculator::initialSetup()`. -/
def initialSetup (hb : ResponseHistoryBuilder R) (c : ResponseSpectraCalculator R) :
    Except String (ResponseSpectraCalculator R) :=
  let history_names := hb.getHistoryNames
  let c := { c with _history_acc := resize c._history_acc history_names.length none }
  forLoop history_names.length (initialSetupStep hb history_names) c

/-- Translation of `ResponseSpectraCalculator::initialize()`: `clear()` on
`_frequency`, on `_period` and through every pointer of `_spectrum`. -/
def initializeVectors (c : ResponseSpectraCalculator R) : ResponseSpectraCalculator R :=
  let vectors := assign (assign c.vectors "frequency" []) "period" []
  let vectors := c._spectrum.foldl (fun vs ptr => assign vs ptr []) vectors
  { c with vectors := vectors }

/-- The body of the loop of `execute()` at index `i`. -/
def executeStep (mu : MastodonUtils R) (i : Nat) (c : ResponseSpectraCalculator R) :
    Except String (ResponseSpectraCalculator R) := do
  let p ← index c._history_acc i
  let acc ← deref p
  let reg_vector := mu.regularize acc c._history_time c._reg_dt
  let reg1 ← index reg_vector 1
  let var_spectrum :=
    mu.responseSpectrum c._freq_start c._freq_end c._freq_num reg1 c._xi c._reg_dt
  let v0 ← index var_spectrum 0
  let v1 ← index var_spectrum 1
  let p0 ← index c._spectrum (3 * i)
  let v2 ← index var_spectrum 2
  let p1 ← index c._spectrum (3 * i + 1)
  let v3 ← index var_spectrum 3
  let p2 ← index c._spectrum (3 * i + 2)
  let v4 ← index var_spectrum 4
  let vectors := assign (assign c.vectors "frequency" v0) "period" v1
  let vectors := assign (assign (assign vectors p0 v2) p1 v3) p2 v4
  .ok { c with vectors := vectors }

/-- Translation of `ResponseSpectraCalculator::execute()`. -/
def execute (mu : MastodonUtils R) (c : ResponseSpectraCalculator R) :
    Except String (ResponseSpectraCalculator R) :=
  forLoop c._history_acc.length (executeStep mu) c

/-- One run of the object as the framework drives it: creation, `initialSetup()`,
then `initialize()` and `execute()`. -/
def run (mu : MastodonUtils R) (parameters : InputParameters R)
    (hb : ResponseHistoryBuilder R) : Except String (ResponseSpectraCalculator R) := do
  let c ← create parameters hb
  let c ← initialSetup hb c
  execute mu (initializeVectors c)

end ResponseSpectraCalculator

/-! ## IceMaterial -/

/-- The components `(0)`, `(1)`, `(2)` of a gradient at the quadrature point. -/
structure RealGradient (α : Type) where
  c0 : α
  c1 : α
  c2 : α

/-- Translation of `IceMaterial::computeQpProperties()`: the pair
(`_viscosity[_qp]`, `_density[_qp]`).  `pow` is `std::pow`. -/
def IceMaterial.computeQpProperties {α : Type} [LinearOrderedField α] (pow : α → α → α)
    (_AGlen _nGlen _rho _II_eps_min : α)
    (_grad_velocity_x _grad_velocity_y _grad_velocity_z : RealGradient α) : α × α :=
  let ApGlen := pow _AGlen (-1 / _nGlen)
  let u_x := _grad_velocity_x.c0
  let u_y := _grad_velocity_x.c1
  let u_z := _grad_velocity_x.c2
  let v_x := _grad_velocity_y.c0
  let v_y := _grad_velocity_y.c1
  let v_z := _grad_velocity_y.c2
  let w_x := _grad_velocity_z.c0
  let w_y := _grad_velocity_z.c1
  let w_z := _grad_velocity_z.c2
  let eps_xy := 0.5 * (u_y + v_x)
  let eps_xz := 0.5 * (u_z + w_x)
  let eps_yz := 0.5 * (v_z + w_y)
  let II_eps := 0.5 * (u_x * u_x + v_y * v_y + w_z * w_z +
    2 * (eps_xy * eps_xy + eps_xz * eps_xz + eps_yz * eps_yz))
  let II_eps := if II_eps < _II_eps_min then _II_eps_min else II_eps
  let viscosity := 0.5 * ApGlen * pow II_eps (-(1 - 1 / _nGlen) / 2)
  let viscosity := max viscosity 0.0001
  (viscosity, _rho)

/-! ## Concrete inputs -/

/-- Utilities that pass the data through: `regularize` returns the given times and
values, `responseSpectrum` returns empty grids and the excitation as `Sd`, `Sv`, `Sa`. -/
def echoUtils : MastodonUtils ℚ where
  regularize history time _ := [time, history]
  responseSpectrum _ _ _ history_acc _ _ := [[], [], history_acc, history_acc, history_acc]

/-- Utilities whose `responseSpectrum` returns five zero vectors of length `freq_num`. -/
def zeroUtils : MastodonUtils ℚ where
  regularize history time _ := [time, history]
  responseSpectrum _ _ freq_num _ _ _ := List.replicate 5 (List.replicate freq_num 0)

/-- A configuration with `damping_ratio = 1`, `start_frequency = 1`,
`end_frequency = 2`, `num_frequencies = 1`, `regularize_dt = 1`. -/
def unitParameters : InputParameters ℚ := ⟨1, 1, 2, 1, 1⟩

/-- A builder with the two histories `a`, `b`. -/
def twoHistories : ResponseHistoryBuilder ℚ := ⟨[0], [("a", [0]), ("b", [1])]⟩

/-- A builder in which the history `a` is listed twice, around the history `b`. -/
def repeatedHistories : ResponseHistoryBuilder ℚ :=
  ⟨[0], [("a", [0]), ("b", [1]), ("a", [0])]⟩

/-- The object the constructor builds from `unitParameters`. -/
def freshObject : ResponseSpectraCalculator ℚ where
  _xi := 1
  _freq_start := 1
  _freq_end := 2
  _freq_num := 1
  _reg_dt := 1
  _history_time := [0]
  _history_acc := []
  _spectrum := []
  vectors := declareVector (declareVector (fun _ => none) "frequency") "period"

/-- An object after `initialSetup()` on one history `a` with values `[5]`, in which
every vector holds `[7]`. -/
def usedObject : ResponseSpectraCalculator ℚ where
  _xi := 1
  _freq_start := 1
  _freq_end := 2
  _freq_num := 1
  _reg_dt := 1
  _history_time := [0]
  _history_acc := [some [5]]
  _spectrum := ["a_sd", "a_sv", "a_sa"]
  vectors := fun _ => some [7]

/-- The object `usedObject` after `initialize()` and `execute()` with `echoUtils`. -/
def usedObjectAfterRun : ResponseSpectraCalculator ℚ :=
  { usedObject with
    vectors := assign (assign (assign (assign (assign
                (ResponseSpectraCalculator.initializeVectors usedObject).vectors
                "frequency" []) "period" []) "a_sd" [5]) "a_sv" [5]) "a_sa" [5] }

/-- A builder without any history. -/
def noHistories : ResponseHistoryBuilder ℚ := ⟨[0], []⟩

/-! ## Loops and subscripts -/

theorem index_eq_ok {α : Type} {v : List α} {i : Nat} {x : α} (h : v[i]? = some x) :
    index v i = .ok x := by
  simp [index, h]

theorem index_ok_iff {α : Type} {v : List α} {i : Nat} {x : α} :
    index v i = .ok x ↔ v[i]? = some x := by
  unfold index
  cases h : v[i]? with
  | none => simp
  | some y => simp

theorem deref_ok_iff {α : Type} {p : Option α} {x : α} : deref p = .ok x ↔ p = some x := by
  cases p with
  | none => simp [deref]
  | some y => simp [deref]

theorem ok_bind {ε α β : Type} (a : α) (f : α → Except ε β) :
    ((Except.ok a : Except ε α) >>= f) = f a := rfl

theorem bind_eq_ok_iff {ε α β : Type} (x : Except ε α) (f : α → Except ε β) (b : β) :
    (x >>= f) = .ok b ↔ ∃ a, x = .ok a ∧ f a = .ok b := by
  cases x with
  | error e =>
    constructor
    · intro h
      exact Except.noConfusion h
    · rintro ⟨a, ha, _⟩
      exact Except.noConfusion ha
  | ok a =>
    constructor
    · intro h
      exact ⟨a, rfl, h⟩
    · rintro ⟨a', ha, h⟩
      cases ha
      exact h

/-- Total correctness of a loop from an invariant that every iteration establishes
again without failing. -/
theorem forLoop_induct {σ : Type} (P : Nat → σ → Prop) (n : Nat)
    (body : Nat → σ → Except String σ) (s : σ) (h0 : P 0 s)
    (hstep : ∀ i s, i < n → P i s → ∃ s', body i s = .ok s' ∧ P (i + 1) s') :
    ∃ s', forLoop n body s = .ok s' ∧ P n s' := by
  induction n with
  | zero => exact ⟨s, rfl, h0⟩
  | succ k ih =>
    obtain ⟨s1, h1, hP1⟩ := ih (fun i s hi => hstep i s (Nat.lt_succ_of_lt hi))
    obtain ⟨s2, h2, hP2⟩ := hstep k s1 (Nat.lt_succ_self k) hP1
    refine ⟨s2, ?_, hP2⟩
    show (forLoop k body s >>= body k) = .ok s2
    rw [h1, ok_bind, h2]

/-- A property kept by every successful iteration holds of the result of the loop. -/
theorem forLoop_preserves {σ : Type} (P : σ → Prop) (n : Nat)
    (body : Nat → σ → Except String σ) (s : σ) (h0 : P s)
    (hstep : ∀ i s s', P s → body i s = .ok s' → P s') :
    ∀ s', forLoop n body s = .ok s' → P s' := by
  induction n with
  | zero =>
    intro s' h
    cases h
    exact h0
  | succ k ih =>
    intro s' h
    obtain ⟨s1, h1, h2⟩ := (bind_eq_ok_iff (forLoop k body s) (body k) s').1 h
    exact hstep k s1 s' (ih s1 h1) h2

/-! ## initialSetup in closed form -/

namespace ResponseSpectraCalculator

variable {R : Type}

theorem length_resize {α : Type} (v : List α) (n : Nat) (d : α) : (resize v n d).length = n := by
  simp only [resize, List.length_append, List.length_take, List.length_replicate]
  omega

/-- The result of `initialSetup()`: it never fails, every pointer of `_history_acc` is
set to the history of the same index, and the three vectors of every history are
declared and appended to `_spectrum` in the order `_sd`, `_sv`, `_sa`. -/
theorem initialSetup_eq (hb : ResponseHistoryBuilder R) (c : ResponseSpectraCalculator R) :
    initialSetup hb c = .ok { c with
      _history_acc := hb.entries.map (fun e => some e.2)
      _spectrum := c._spectrum ++
        hb.entries.flatMap (fun e => [e.1 ++ "_sd", e.1 ++ "_sv", e.1 ++ "_sa"])
      vectors := (hb.entries.flatMap
        (fun e => [e.1 ++ "_sd", e.1 ++ "_sv", e.1 ++ "_sa"])).foldl declareVector c.vectors } := by
  have hlen : hb.getHistoryNames.length = hb.entries.length := by
    simp [ResponseHistoryBuilder.getHistoryNames]
  obtain ⟨s', hs', ha, hs'eq, halen, hacc⟩ := forLoop_induct
    (fun i s => ∃ ha : List (Option (List R)), s = { c with
        _history_acc := ha
        _spectrum := c._spectrum ++
          (hb.entries.take i).flatMap (fun e => [e.1 ++ "_sd", e.1 ++ "_sv", e.1 ++ "_sa"])
        vectors := ((hb.entries.take i).flatMap
          (fun e => [e.1 ++ "_sd", e.1 ++ "_sv", e.1 ++ "_sa"])).foldl declareVector c.vectors } ∧
      ha.length = hb.entries.length ∧
      ∀ j, j < i → ha[j]? = (hb.entries[j]?).map (fun e => some e.2))
    hb.getHistoryNames.length (initialSetupStep hb hb.getHistoryNames)
    { c with _history_acc := resize c._history_acc hb.getHistoryNames.length none }
    ⟨resize c._history_acc hb.getHistoryNames.length none, by simp,
      by rw [length_resize, hlen], fun j hj => absurd hj (Nat.not_lt_zero j)⟩
    (by
      rintro i s hi ⟨ha, rfl, halen, hacc⟩
      rw [hlen] at hi
      have hent : hb.entries[i]? = some hb.entries[i] := List.getElem?_eq_getElem hi
      have h1 : index hb.getHistories i = .ok hb.entries[i].2 :=
        index_eq_ok (by simp [ResponseHistoryBuilder.getHistories, hent])
      have h2 : index ha i = .ok ha[i] := index_eq_ok (List.getElem?_eq_getElem (by omega))
      have h3 : index hb.getHistoryNames i = .ok hb.entries[i].1 :=
        index_eq_ok (by simp [ResponseHistoryBuilder.getHistoryNames, hent])
      refine ⟨_, by
        simp only [initialSetupStep, h1, h2, h3, ok_bind]
        rfl, ha.set i (some hb.entries[i].2), ?_, by simpa using halen, ?_⟩
      · rw [List.take_succ, hent]
        simp only [Option.toList, List.flatMap_append, List.foldl_append, List.flatMap_cons,
          List.flatMap_nil, List.append_nil, List.foldl_cons, List.foldl_nil, List.append_assoc]
      · intro j hj
        by_cases hji : j = i
        · subst hji
          rw [List.getElem?_set_self (by omega), hent]
          rfl
        · rw [List.getElem?_set_ne (fun h => hji h.symm)]
          exact hacc j (by omega))
  have hha : ha = hb.entries.map (fun e => some e.2) := by
    apply List.ext_getElem?
    intro j
    by_cases hj : j < hb.entries.length
    · rw [hacc j (by rw [hlen]; exact hj), List.getElem?_map]
    · rw [List.getElem?_eq_none (by omega), List.getElem?_eq_none (by simp; omega)]
  unfold initialSetup
  simp only []
  rw [hs', hs'eq, hha, hlen, List.take_length]

end ResponseSpectraCalculator

/-! ## Names of the declared vectors -/

theorem append_suffix_inj (a b s t : String) (hl : s.length = t.length)
    (h : a ++ s = b ++ t) : a = b ∧ s = t := by
  have hd : a.data ++ s.data = b.data ++ t.data := by
    rw [← String.data_append, ← String.data_append, h]
  obtain ⟨h1, h2⟩ := List.append_inj' hd hl
  exact ⟨String.ext h1, String.ext h2⟩

/-- Two names built with three-character suffixes are equal exactly when both parts
are. -/
theorem append_suffix_eq_iff (a b s t : String) (hs : s.length = 3) (ht : t.length = 3) :
    a ++ s = b ++ t ↔ a = b ∧ s = t :=
  ⟨append_suffix_inj a b s t (hs.trans ht.symm), fun ⟨h1, h2⟩ => by rw [h1, h2]⟩

theorem append_suffix_ne_frequency (a s : String) (hs : s.length = 3) (hne : s ≠ "ncy") :
    a ++ s ≠ "frequency" := by
  intro h
  have h' : a ++ s = "freque" ++ "ncy" := by
    rw [h]
    decide
  exact hne (append_suffix_inj a "freque" s "ncy" (hs.trans (by decide)) h').2

theorem append_suffix_ne_period (a s : String) (hs : s.length = 3) (hne : s ≠ "iod") :
    a ++ s ≠ "period" := by
  intro h
  have h' : a ++ s = "per" ++ "iod" := by
    rw [h]
    decide
  exact hne (append_suffix_inj a "per" s "iod" (hs.trans (by decide)) h').2

theorem frequency_ne_append_suffix (a s : String) (hs : s.length = 3) (hne : s ≠ "ncy") :
    "frequency" ≠ a ++ s :=
  fun h => append_suffix_ne_frequency a s hs hne h.symm

theorem period_ne_append_suffix (a s : String) (hs : s.length = 3) (hne : s ≠ "iod") :
    "period" ≠ a ++ s :=
  fun h => append_suffix_ne_period a s hs hne h.symm

/-- Positions `3 * i`, `3 * i + 1` and `3 * i + 2` of a list built three elements at
a time. -/
theorem getElem?_flatMap_three {α β : Type} (f g h : α → β) (l : List α) (i : Nat) :
    (l.flatMap (fun e => [f e, g e, h e]))[3 * i]? = l[i]?.map f ∧
    (l.flatMap (fun e => [f e, g e, h e]))[3 * i + 1]? = l[i]?.map g ∧
    (l.flatMap (fun e => [f e, g e, h e]))[3 * i + 2]? = l[i]?.map h := by
  induction l generalizing i with
  | nil => simp
  | cons x xs ih =>
    cases i with
    | zero => simp
    | succ k =>
      have e0 : 3 * (k + 1) = (3 * k) + 1 + 1 + 1 := by ring
      have e1 : 3 * (k + 1) + 1 = (3 * k + 1) + 1 + 1 + 1 := by ring
      have e2 : 3 * (k + 1) + 2 = (3 * k + 2) + 1 + 1 + 1 := by ring
      obtain ⟨h0, h1, h2⟩ := ih k
      refine ⟨?_, ?_, ?_⟩
      · rw [e0]
        simpa only [List.flatMap_cons, List.cons_append, List.nil_append,
          List.getElem?_cons_succ] using h0
      · rw [e1]
        simpa only [List.flatMap_cons, List.cons_append, List.nil_append,
          List.getElem?_cons_succ] using h1
      · rw [e2]
        simpa only [List.flatMap_cons, List.cons_append, List.nil_append,
          List.getElem?_cons_succ] using h2

theorem length_flatMap_three {α β : Type} (f g h : α → β) (l : List α) :
    (l.flatMap (fun e => [f e, g e, h e])).length = 3 * l.length := by
  induction l with
  | nil => rfl
  | cons x xs ih =>
    simp only [List.flatMap_cons, List.length_append, List.length_cons, List.length_nil, ih]
    omega

theorem exists_cons_two {α : Type} (l : List α) (h : 2 ≤ l.length) :
    ∃ a b r, l = a :: b :: r := by
  match l, h with
  | a :: b :: r, _ => exact ⟨a, b, r, rfl⟩

theorem exists_cons_five {α : Type} (l : List α) (h : 5 ≤ l.length) :
    ∃ a b c d e r, l = a :: b :: c :: d :: e :: r := by
  match l, h with
  | a :: b :: c :: d :: e :: r, _ => exact ⟨a, b, c, d, e, r, rfl⟩

/-! ## initialize and the body of execute -/

namespace ResponseSpectraCalculator

variable {R : Type}

theorem foldl_assign_nil (l : List String) (vs : VectorStore R) (k : String) :
    (l.foldl (fun vs ptr => assign vs ptr []) vs) k = if k ∈ l then some [] else vs k := by
  induction l generalizing vs with
  | nil => simp
  | cons p ps ih =>
    rw [List.foldl_cons, ih]
    by_cases hk : k ∈ ps
    · simp [hk]
    · by_cases hp : k = p
      · simp [hp, assign]
      · simp [hk, hp, assign]

/-- The vectors after `initialize()`: `frequency`, `period` and every vector pointed
to by `_spectrum` are empty, every other one is untouched. -/
theorem initializeVectors_vectors (c : ResponseSpectraCalculator R) (k : String) :
    (initializeVectors c).vectors k =
      if k = "frequency" ∨ k = "period" ∨ k ∈ c._spectrum then some [] else c.vectors k := by
  simp only [initializeVectors, foldl_assign_nil, assign]
  by_cases h1 : k ∈ c._spectrum
  · simp [h1]
  · by_cases h2 : k = "period"
    · simp [h2]
    · by_cases h3 : k = "frequency"
      · simp [h3]
      · simp [h1, h2, h3]

theorem initializeVectors_eq (c : ResponseSpectraCalculator R) :
    initializeVectors c = { c with vectors := (initializeVectors c).vectors } := rfl

/-- The body of `execute()` when every subscript is in range. -/
theorem executeStep_eq (mu : MastodonUtils R) (i : Nat) (c : ResponseSpectraCalculator R)
    (acc reg1 v0 v1 v2 v3 v4 : List R) (p0 p1 p2 : String)
    (hacc : c._history_acc[i]? = some (some acc))
    (hreg : (mu.regularize acc c._history_time c._reg_dt)[1]? = some reg1)
    (h0 : (mu.responseSpectrum c._freq_start c._freq_end c._freq_num reg1 c._xi c._reg_dt)[0]?
      = some v0)
    (h1 : (mu.responseSpectrum c._freq_start c._freq_end c._freq_num reg1 c._xi c._reg_dt)[1]?
      = some v1)
    (h2 : (mu.responseSpectrum c._freq_start c._freq_end c._freq_num reg1 c._xi c._reg_dt)[2]?
      = some v2)
    (h3 : (mu.responseSpectrum c._freq_start c._freq_end c._freq_num reg1 c._xi c._reg_dt)[3]?
      = some v3)
    (h4 : (mu.responseSpectrum c._freq_start c._freq_end c._freq_num reg1 c._xi c._reg_dt)[4]?
      = some v4)
    (hp0 : c._spectrum[3 * i]? = some p0) (hp1 : c._spectrum[3 * i + 1]? = some p1)
    (hp2 : c._spectrum[3 * i + 2]? = some p2) :
    executeStep mu i c = .ok
      { c with
        vectors := assign (assign (assign (assign (assign c.vectors "frequency" v0)
                    "period" v1) p0 v2) p1 v3) p2 v4 } := by
  simp only [executeStep, index_eq_ok hacc, index_eq_ok hreg, index_eq_ok h0, index_eq_ok h1,
    index_eq_ok h2, index_eq_ok h3, index_eq_ok h4, index_eq_ok hp0, index_eq_ok hp1,
    index_eq_ok hp2, ok_bind, deref]

/-- What a successful iteration of `execute()` did: five assignments, three of them
through pointers taken from `_spectrum`. -/
theorem executeStep_ok (mu : MastodonUtils R) (i : Nat) (c c' : ResponseSpectraCalculator R)
    (h : executeStep mu i c = .ok c') :
    ∃ (v0 v1 v2 v3 v4 : List R) (p0 p1 p2 : String),
      p0 ∈ c._spectrum ∧ p1 ∈ c._spectrum ∧ p2 ∈ c._spectrum ∧
      c' =
        { c with
          vectors := assign (assign (assign (assign (assign c.vectors "frequency" v0)
                      "period" v1) p0 v2) p1 v3) p2 v4 } := by
  simp only [executeStep, bind_eq_ok_iff, index_ok_iff, deref_ok_iff] at h
  obtain ⟨p, _, acc, _, reg1, _, v0, _, v1, _, p0, hp0, v2, _, p1, hp1, v3, _, p2, hp2, v4, _,
    hc⟩ := h
  refine ⟨v0, v1, v2, v3, v4, p0, p1, p2, List.getElem?_mem hp0, List.getElem?_mem hp1,
    List.getElem?_mem hp2, ?_⟩
  cases hc
  rfl

end ResponseSpectraCalculator

/-! ## The loop of execute on a set-up object -/

namespace ResponseSpectraCalculator

variable {R : Type}

/-- Total correctness of `execute()` on an object whose `_history_acc` and `_spectrum`
are those left by `initialSetup()` on a fresh object: the loop does not fail, only
`vectors` changes, and an invariant of the five assignments of every iteration holds
at the end. -/
theorem execute_induct (mu : MastodonUtils R) (hmu : mu.Returns)
    (hb : ResponseHistoryBuilder R) (c : ResponseSpectraCalculator R)
    (hacc : c._history_acc = hb.entries.map (fun e => some e.2))
    (hsp : c._spectrum =
      hb.entries.flatMap (fun e => [e.1 ++ "_sd", e.1 ++ "_sv", e.1 ++ "_sa"]))
    (P : Nat → VectorStore R → Prop) (h0 : P 0 c.vectors)
    (hstep : ∀ (i : Nat) (e : String × List R) (vs : VectorStore R)
      (reg1 v0 v1 v2 v3 v4 : List R) (r0 : List R) (rest rest' : List (List R)),
      hb.entries[i]? = some e → P i vs →
      mu.regularize e.2 c._history_time c._reg_dt = r0 :: reg1 :: rest →
      mu.responseSpectrum c._freq_start c._freq_end c._freq_num reg1 c._xi c._reg_dt =
        v0 :: v1 :: v2 :: v3 :: v4 :: rest' →
      P (i + 1) (assign (assign (assign (assign (assign vs "frequency" v0) "period" v1)
        (e.1 ++ "_sd") v2) (e.1 ++ "_sv") v3) (e.1 ++ "_sa") v4)) :
    ∃ vs, execute mu c = .ok { c with vectors := vs } ∧ P hb.entries.length vs := by
  have hn : c._history_acc.length = hb.entries.length := by rw [hacc, List.length_map]
  obtain ⟨s', hs', vs, rfl, hP⟩ := forLoop_induct
    (fun i s => ∃ vs, s = { c with vectors := vs } ∧ P i vs)
    c._history_acc.length (executeStep mu) c ⟨c.vectors, rfl, h0⟩
    (by
      rintro i s hi ⟨vs, rfl, hP⟩
      rw [hn] at hi
      have hent : hb.entries[i]? = some hb.entries[i] := List.getElem?_eq_getElem hi
      obtain ⟨r0, reg1, rest, hreg⟩ := exists_cons_two _
        (hmu.1 hb.entries[i].2 c._history_time c._reg_dt)
      obtain ⟨v0, v1, v2, v3, v4, rest', hrs⟩ := exists_cons_five _
        (hmu.2 c._freq_start c._freq_end c._freq_num reg1 c._xi c._reg_dt)
      obtain ⟨hp0, hp1, hp2⟩ := getElem?_flatMap_three (fun e => e.1 ++ "_sd")
        (fun e => e.1 ++ "_sv") (fun e => e.1 ++ "_sa") hb.entries i
      refine ⟨_, executeStep_eq mu i { c with vectors := vs } hb.entries[i].2 reg1 v0 v1 v2 v3 v4
        (hb.entries[i].1 ++ "_sd") (hb.entries[i].1 ++ "_sv") (hb.entries[i].1 ++ "_sa")
        ?_ ?_ ?_ ?_ ?_ ?_ ?_ ?_ ?_ ?_, _, rfl,
        hstep i hb.entries[i] vs reg1 v0 v1 v2 v3 v4 r0 rest rest' hent hP hreg hrs⟩
      · show c._history_acc[i]? = _
        rw [hacc, List.getElem?_map, hent]
        rfl
      · show (mu.regularize hb.entries[i].2 c._history_time c._reg_dt)[1]? = _
        rw [hreg]
        simp
      · show (mu.responseSpectrum c._freq_start c._freq_end c._freq_num reg1 c._xi
          c._reg_dt)[0]? = _
        rw [hrs]
        simp
      · show (mu.responseSpectrum c._freq_start c._freq_end c._freq_num reg1 c._xi
          c._reg_dt)[1]? = _
        rw [hrs]
        simp
      · show (mu.responseSpectrum c._freq_start c._freq_end c._freq_num reg1 c._xi
          c._reg_dt)[2]? = _
        rw [hrs]
        simp
      · show (mu.responseSpectrum c._freq_start c._freq_end c._freq_num reg1 c._xi
          c._reg_dt)[3]? = _
        rw [hrs]
        simp
      · show (mu.responseSpectrum c._freq_start c._freq_end c._freq_num reg1 c._xi
          c._reg_dt)[4]? = _
        rw [hrs]
        simp
      · show c._spectrum[3 * i]? = _
        rw [hsp, hp0, hent]
        rfl
      · show c._spectrum[3 * i + 1]? = _
        rw [hsp, hp1, hent]
        rfl
      · show c._spectrum[3 * i + 2]? = _
        rw [hsp, hp2, hent]
        rfl)
  refine ⟨vs, hs', ?_⟩
  rw [← hn]
  exact hP

/-- A configuration that passes creation yields the object with the members set from
the parameters, no history pointer, no spectrum pointer, and the vectors `frequency`
and `period` declared. -/
theorem create_ok [MooseReal R] (parameters : InputParameters R)
    (hb : ResponseHistoryBuilder R) (c0 : ResponseSpectraCalculator R)
    (h : create parameters hb = .ok c0) :
    c0 = { _xi := parameters.damping_ratio, _freq_start := parameters.start_frequency,
           _freq_end := parameters.end_frequency, _freq_num := parameters.num_frequencies,
           _reg_dt := parameters.regularize_dt, _history_time := hb.time,
           _history_acc := [], _spectrum := [],
           vectors := declareVector (declareVector (fun _ => none) "frequency") "period" } := by
  obtain ⟨_, _, h'⟩ := (bind_eq_ok_iff _ _ _).1 h
  unfold construct at h'
  simp only [] at h'
  split_ifs at h'
  cases h'
  rfl

/-- The run of a created object is `execute()` on the object that `initialSetup()`
and `initialize()` leave: its members are the parameters, its history pointers and
spectrum pointers follow the builder's entries, and `frequency` and `period` are
empty. -/
theorem run_eq_execute [MooseReal R] (mu : MastodonUtils R)
    (parameters : InputParameters R) (hb : ResponseHistoryBuilder R)
    (hvalid : ∃ c0, create parameters hb = .ok c0) :
    ∃ c1 : ResponseSpectraCalculator R, run mu parameters hb = execute mu c1 ∧
      c1._history_acc = hb.entries.map (fun e => some e.2) ∧
      c1._spectrum = hb.entries.flatMap (fun e => [e.1 ++ "_sd", e.1 ++ "_sv", e.1 ++ "_sa"]) ∧
      c1._xi = parameters.damping_ratio ∧ c1._freq_start = parameters.start_frequency ∧
      c1._freq_end = parameters.end_frequency ∧ c1._freq_num = parameters.num_frequencies ∧
      c1._reg_dt = parameters.regularize_dt ∧ c1._history_time = hb.time ∧
      c1.vectors "frequency" = some [] ∧ c1.vectors "period" = some [] := by
  obtain ⟨c0, hc0⟩ := hvalid
  have hc0eq := create_ok parameters hb c0 hc0
  refine ⟨initializeVectors { c0 with
      _history_acc := hb.entries.map (fun e => some e.2)
      _spectrum := c0._spectrum ++
        hb.entries.flatMap (fun e => [e.1 ++ "_sd", e.1 ++ "_sv", e.1 ++ "_sa"])
      vectors := (hb.entries.flatMap
        (fun e => [e.1 ++ "_sd", e.1 ++ "_sv", e.1 ++ "_sa"])).foldl
          declareVector c0.vectors }, ?_, rfl, ?_, ?_, ?_, ?_, ?_, ?_, ?_, ?_, ?_⟩
  · unfold run
    rw [hc0, ok_bind, initialSetup_eq, ok_bind]
  · subst hc0eq
    exact List.nil_append _
  · subst hc0eq
    rfl
  · subst hc0eq
    rfl
  · subst hc0eq
    rfl
  · subst hc0eq
    rfl
  · subst hc0eq
    rfl
  · subst hc0eq
    rfl
  · rw [initializeVectors_vectors]
    simp
  · rw [initializeVectors_vectors]
    simp

end ResponseSpectraCalculator

/-! ## Properties of the constructor -/

namespace ResponseSpectraCalculator

variable {R : Type} [MooseReal R]

/-- The constructor fails exactly when one of its three checks fires. -/
theorem construct_error_iff (parameters : InputParameters R) (hb : ResponseHistoryBuilder R) :
    (∃ msg, construct parameters hb = .error msg) ↔
      (parameters.start_frequency ≥ parameters.end_frequency ∨
        parameters.start_frequency ≤ 0 ∨ parameters.damping_ratio ≤ 0) := by
  unfold construct
  by_cases h1 : parameters.start_frequency ≥ parameters.end_frequency
  · simp [h1]
  · by_cases h2 : parameters.start_frequency ≤ 0
    · simp [h1, h2]
    · by_cases h3 : parameters.damping_ratio ≤ 0
      · simp [h1, h2, h3]
      · simp [h1, h2, h3]

/-- An error at creation is the result of the whole run. -/
theorem run_error_of_create_error (mu : MastodonUtils R) (parameters : InputParameters R)
    (hb : ResponseHistoryBuilder R) (msg : String)
    (h : create parameters hb = .error msg) : run mu parameters hb = .error msg := by
  unfold run
  rw [h]
  rfl

/-- C1: for every configuration, when `start_frequency >= end_frequency`, or
`start_frequency <= 0`, or `damping_ratio <= 0`, the constructor raises an error, and
the run ends with an error whatever `regularize` and `responseSpectrum` are: no
history is regularized and no spectrum is computed. -/
theorem construct_rejects_invalid (parameters : InputParameters R)
    (hb : ResponseHistoryBuilder R)
    (h : parameters.start_frequency ≥ parameters.end_frequency ∨
      parameters.start_frequency ≤ 0 ∨ parameters.damping_ratio ≤ 0) :
    (∃ msg, construct parameters hb = .error msg) ∧
      ∀ mu : MastodonUtils R, ∃ msg, run mu parameters hb = .error msg := by
  obtain ⟨msg, hmsg⟩ := (construct_error_iff parameters hb).2 h
  refine ⟨⟨msg, hmsg⟩, fun mu => ?_⟩
  cases hr : rangeCheck parameters with
  | error e =>
    exact ⟨e, run_error_of_create_error mu parameters hb e (by simp [create, hr, bind, Except.bind])⟩
  | ok u =>
    exact ⟨msg, run_error_of_create_error mu parameters hb msg
      (by simp [create, hr, hmsg, bind, Except.bind])⟩

/-- Witness for C1: `start_frequency = end_frequency = 1`. -/
theorem construct_rejects_invalid_witness :
    (∃ msg, construct (⟨1, 1, 1, 401, 1⟩ : InputParameters ℚ) ⟨[], []⟩ = .error msg) ∧
      ∀ mu : MastodonUtils ℚ, ∃ msg, run mu ⟨1, 1, 1, 401, 1⟩ ⟨[], []⟩ = .error msg :=
  construct_rejects_invalid ⟨1, 1, 1, 401, 1⟩ ⟨[], []⟩ (Or.inl (by decide))

/-- C3: for every configuration with `0 < start_frequency < end_frequency` and
`damping_ratio > 0` the constructor raises no error; there is no upper bound on
`damping_ratio`, so over-critical damping (`damping_ratio >= 1`) is accepted. -/
theorem construct_accepts_any_positive_damping (parameters : InputParameters R)
    (hb : ResponseHistoryBuilder R) (hstart : 0 < parameters.start_frequency)
    (horder : parameters.start_frequency < parameters.end_frequency)
    (hxi : 0 < parameters.damping_ratio) :
    ∃ c, construct parameters hb = .ok c ∧ c._xi = parameters.damping_ratio := by
  have h1 : ¬ parameters.start_frequency ≥ parameters.end_frequency :=
    MooseReal.not_le_of_lt _ _ horder
  have h2 : ¬ parameters.start_frequency ≤ 0 := MooseReal.not_le_of_lt _ _ hstart
  have h3 : ¬ parameters.damping_ratio ≤ 0 := MooseReal.not_le_of_lt _ _ hxi
  unfold construct
  simp only [h1, h2, h3, if_false]
  exact ⟨_, rfl, rfl⟩

/-- Witness for C3: `damping_ratio = 2`, which is over-critical. -/
theorem construct_accepts_any_positive_damping_witness :
    (1 : ℚ) ≤ 2 ∧ ∃ c, construct (⟨2, 1, 2, 401, 1⟩ : InputParameters ℚ) ⟨[], []⟩ = .ok c ∧
      c._xi = 2 :=
  ⟨by norm_num, construct_accepts_any_positive_damping ⟨2, 1, 2, 401, 1⟩ ⟨[], []⟩
    (by decide) (by decide) (by decide)⟩

end ResponseSpectraCalculator

/-! ## Properties of initialSetup, initialize and execute -/

namespace ResponseSpectraCalculator

variable {R : Type}

/-- The entry behind a name and a history found at the same index of
`getHistoryNames()` and `getHistories()`. -/
theorem entry_of_name_history (hb : ResponseHistoryBuilder R) (i : Nat) (name : String)
    (history : List R) (hname : hb.getHistoryNames[i]? = some name)
    (hhist : hb.getHistories[i]? = some history) :
    hb.entries[i]? = some (name, history) := by
  simp only [ResponseHistoryBuilder.getHistoryNames, ResponseHistoryBuilder.getHistories,
    List.getElem?_map] at hname hhist
  cases he : hb.entries[i]? with
  | none => simp [he] at hname
  | some e =>
    rw [he] at hname hhist
    simp only [Option.map_some', Option.some.injEq] at hname hhist
    rw [← hname, ← hhist]

/-- C4: for every list of history names and histories, a name identifying its
history, after creation, `initialSetup()`, `initialize()` and `execute()`, the vector
declared under `<name_i>_sd` holds component 2, `<name_i>_sv` component 3 and
`<name_i>_sa` component 4 of `responseSpectrum(start_frequency, end_frequency,
num_frequencies, regularize(history_i, time, regularize_dt)[1], damping_ratio,
regularize_dt)`, for every history index `i`. -/
theorem run_spectra [MooseReal R] (mu : MastodonUtils R)
    (parameters : InputParameters R) (hb : ResponseHistoryBuilder R)
    (hmu : mu.Returns) (hvalid : ∃ c0, create parameters hb = .ok c0)
    (hnames : hb.NamesIdentifyHistories) :
    ∃ c, run mu parameters hb = .ok c ∧
      ∀ (i : Nat) (name : String) (history a : List R),
        hb.getHistoryNames[i]? = some name → hb.getHistories[i]? = some history →
        (mu.regularize history hb.time parameters.regularize_dt)[1]? = some a →
        c.vectors (name ++ "_sd") = (mu.responseSpectrum parameters.start_frequency
          parameters.end_frequency parameters.num_frequencies a parameters.damping_ratio
          parameters.regularize_dt)[2]? ∧
        c.vectors (name ++ "_sv") = (mu.responseSpectrum parameters.start_frequency
          parameters.end_frequency parameters.num_frequencies a parameters.damping_ratio
          parameters.regularize_dt)[3]? ∧
        c.vectors (name ++ "_sa") = (mu.responseSpectrum parameters.start_frequency
          parameters.end_frequency parameters.num_frequencies a parameters.damping_ratio
          parameters.regularize_dt)[4]? := by
  obtain ⟨c1, hrun, hacc, hsp, hxi, hfs, hfe, hfn, hdt, htime, -, -⟩ :=
    run_eq_execute mu parameters hb hvalid
  obtain ⟨vs, hex, hP⟩ := execute_induct mu hmu hb c1 hacc hsp
    (fun i vs => ∀ (j : Nat) (e : String × List R) (a : List R), j < i →
      hb.entries[j]? = some e →
      (mu.regularize e.2 hb.time parameters.regularize_dt)[1]? = some a →
      vs (e.1 ++ "_sd") = (mu.responseSpectrum parameters.start_frequency
          parameters.end_frequency parameters.num_frequencies a parameters.damping_ratio
          parameters.regularize_dt)[2]? ∧
      vs (e.1 ++ "_sv") = (mu.responseSpectrum parameters.start_frequency
          parameters.end_frequency parameters.num_frequencies a parameters.damping_ratio
          parameters.regularize_dt)[3]? ∧
      vs (e.1 ++ "_sa") = (mu.responseSpectrum parameters.start_frequency
          parameters.end_frequency parameters.num_frequencies a parameters.damping_ratio
          parameters.regularize_dt)[4]?)
    (fun j _ _ hj => absurd hj (Nat.not_lt_zero j))
    (by
      intro i e vs reg1 v0 v1 v2 v3 v4 r0 rest rest' hent hP hreg hrs j e' a hj hent' ha
      rw [htime, hdt] at hreg
      rw [hfs, hfe, hfn, hxi, hdt] at hrs
      by_cases hname : e'.1 = e.1
      · have hdata : e'.2 = e.2 :=
          hnames e' (List.getElem?_mem hent') e (List.getElem?_mem hent) hname
        rw [hdata, hreg] at ha
        simp only [List.getElem?_cons_succ, List.getElem?_cons_zero, Option.some.injEq] at ha
        subst ha
        rw [hname, hrs]
        simp +decide [assign, append_suffix_eq_iff]
      · have hji : j ≠ i := by
          intro hji
          subst hji
          rw [hent] at hent'
          cases hent'
          exact hname rfl
        obtain ⟨h1, h2, h3⟩ := hP j e' a (by omega) hent' ha
        rw [← h1, ← h2, ← h3]
        simp +decide [assign, append_suffix_eq_iff, append_suffix_ne_frequency,
          append_suffix_ne_period, hname])
  refine ⟨_, hrun.trans hex, ?_⟩
  intro i name history a hname hhist ha
  have hent := entry_of_name_history hb i name history hname hhist
  exact hP i (name, history) a (List.getElem?_eq_some.1 hent).1 hent ha

/-- Witness for C4: the histories `a`, `b`, `a`, the first listed twice. -/
theorem run_spectra_witness :
    ∃ c, run echoUtils unitParameters repeatedHistories = .ok c ∧
      ∀ (i : Nat) (name : String) (history a : List ℚ),
        repeatedHistories.getHistoryNames[i]? = some name →
        repeatedHistories.getHistories[i]? = some history →
        (echoUtils.regularize history repeatedHistories.time
          unitParameters.regularize_dt)[1]? = some a →
        c.vectors (name ++ "_sd") = (echoUtils.responseSpectrum unitParameters.start_frequency
          unitParameters.end_frequency unitParameters.num_frequencies a
          unitParameters.damping_ratio unitParameters.regularize_dt)[2]? ∧
        c.vectors (name ++ "_sv") = (echoUtils.responseSpectrum unitParameters.start_frequency
          unitParameters.end_frequency unitParameters.num_frequencies a
          unitParameters.damping_ratio unitParameters.regularize_dt)[3]? ∧
        c.vectors (name ++ "_sa") = (echoUtils.responseSpectrum unitParameters.start_frequency
          unitParameters.end_frequency unitParameters.num_frequencies a
          unitParameters.damping_ratio unitParameters.regularize_dt)[4]? :=
  run_spectra echoUtils unitParameters repeatedHistories
    ⟨fun _ _ _ => le_refl 2, fun _ _ _ _ _ _ => le_refl 5⟩ ⟨_, rfl⟩
    (by
      unfold ResponseHistoryBuilder.NamesIdentifyHistories repeatedHistories
      decide)

/-- C10: after `initialSetup()` on `n` histories, starting from an empty spectrum list,
the spectrum list has exactly `3 * n` entries and the history list `n` entries, so
`3 * i + 2 < |_spectrum|` for every `i < n`; after any number `k >= 1` of invocations
the history list still has `n` entries and the bound still holds. -/
theorem initialSetup_spectrum_bounds (hb : ResponseHistoryBuilder R)
    (c : ResponseSpectraCalculator R) (k : Nat) (hc : c._spectrum = []) (hk : 1 ≤ k) :
    (∃ c1, initialSetup hb c = .ok c1 ∧ c1._spectrum.length = 3 * hb.getHistories.length ∧
      c1._history_acc.length = hb.getHistories.length ∧
      ∀ i, i < hb.getHistories.length → 3 * i + 2 < c1._spectrum.length) ∧
    ∃ ck, forLoop k (fun _ => initialSetup hb) c = .ok ck ∧
      ck._history_acc.length = hb.getHistories.length ∧
      ∀ i, i < hb.getHistories.length → 3 * i + 2 < ck._spectrum.length := by
  have hn : hb.getHistories.length = hb.entries.length := by
    simp [ResponseHistoryBuilder.getHistories]
  rw [hn]
  constructor
  · refine ⟨_, initialSetup_eq hb c, ?_, ?_, ?_⟩
    · simp only [hc, List.nil_append, length_flatMap_three]
    · simp only [List.length_map]
    · intro i hi
      simp only [hc, List.nil_append, length_flatMap_three]
      omega
  · obtain ⟨ck, hck, hsp, hacc⟩ := forLoop_induct
      (fun j s => s._spectrum.length = j * (3 * hb.entries.length) ∧
        (1 ≤ j → s._history_acc.length = hb.entries.length))
      k (fun _ => initialSetup hb) c
      ⟨by simp [hc], fun h => absurd h (by decide)⟩
      (by
        rintro j s _ ⟨hsp, _⟩
        refine ⟨_, initialSetup_eq hb s, ?_, fun _ => ?_⟩
        · simp only [List.length_append, length_flatMap_three, hsp]
          ring
        · simp only [List.length_map])
    refine ⟨ck, hck, hacc hk, ?_⟩
    intro i hi
    rw [hsp]
    have : 1 * (3 * hb.entries.length) ≤ k * (3 * hb.entries.length) :=
      Nat.mul_le_mul_right _ hk
    omega

/-- Witness for C10: two invocations on the builder with the histories `a`, `b`. -/
theorem initialSetup_spectrum_bounds_witness :
    (∃ c1, initialSetup twoHistories freshObject = .ok c1 ∧
      c1._spectrum.length = 3 * twoHistories.getHistories.length ∧
      c1._history_acc.length = twoHistories.getHistories.length ∧
      ∀ i, i < twoHistories.getHistories.length → 3 * i + 2 < c1._spectrum.length) ∧
    ∃ ck, forLoop 2 (fun _ => initialSetup twoHistories) freshObject = .ok ck ∧
      ck._history_acc.length = twoHistories.getHistories.length ∧
      ∀ i, i < twoHistories.getHistories.length → 3 * i + 2 < ck._spectrum.length :=
  initialSetup_spectrum_bounds twoHistories freshObject 2 rfl (by decide)

/-- C5 as stated, for sets of histories of any size including none, fails: without
any history the loop of `execute()` is not entered and `frequency` stays empty, while
`num_frequencies = 1`. -/
theorem no_history_frequency_empty :
    ¬ ∀ (mu : MastodonUtils ℚ) (parameters : InputParameters ℚ)
        (hb : ResponseHistoryBuilder ℚ),
        mu.Returns → mu.ReturnsLength → (∃ c0, create parameters hb = .ok c0) →
        1 ≤ parameters.num_frequencies →
        ∃ c f pd, run mu parameters hb = .ok c ∧
          c.vectors "frequency" = some f ∧ f.length = parameters.num_frequencies ∧
          c.vectors "period" = some pd ∧ pd.length = parameters.num_frequencies := by
  intro h
  obtain ⟨c, f, pd, hrun, hf, hflen, _⟩ := h zeroUtils unitParameters noHistories
    ⟨fun _ _ _ => le_refl 2, fun _ _ _ _ _ _ => le_refl 5⟩
    (by
      intro fs fe n a xi dt v hv
      simp only [zeroUtils, List.mem_replicate] at hv
      rw [hv.2, List.length_replicate])
    ⟨_, rfl⟩ (le_refl 1)
  have hc : Except.ok c = run zeroUtils unitParameters noHistories := hrun.symm
  have hval : (match run zeroUtils unitParameters noHistories with
      | .ok c => c.vectors "frequency"
      | .error _ => none) = some [] := by decide
  rw [← hc] at hval
  simp only [hf, Option.some.injEq] at hval
  rw [hval] at hflen
  revert hflen
  decide

/-- C5, amended: for every configuration that passes creation and every non-empty
set of input histories, after `initialize()` followed by `execute()` the `frequency`
and `period` outputs each have length `num_frequencies`, assuming `responseSpectrum`
returns vectors of length `num_frequencies`. -/
theorem run_frequency_length [MooseReal R] (mu : MastodonUtils R)
    (parameters : InputParameters R) (hb : ResponseHistoryBuilder R)
    (hmu : mu.Returns) (hlen : mu.ReturnsLength)
    (hvalid : ∃ c0, create parameters hb = .ok c0) (hne : hb.getHistories ≠ []) :
    ∃ c f pd, run mu parameters hb = .ok c ∧
      c.vectors "frequency" = some f ∧ f.length = parameters.num_frequencies ∧
      c.vectors "period" = some pd ∧ pd.length = parameters.num_frequencies := by
  obtain ⟨c1, hrun, hacc, hsp, hxi, hfs, hfe, hfn, hdt, htime, -, -⟩ :=
    run_eq_execute mu parameters hb hvalid
  obtain ⟨vs, hex, hP⟩ := execute_induct mu hmu hb c1 hacc hsp
    (fun i vs => 0 < i → ∃ f pd, vs "frequency" = some f ∧
      f.length = parameters.num_frequencies ∧
      vs "period" = some pd ∧ pd.length = parameters.num_frequencies)
    (fun h => absurd h (Nat.lt_irrefl 0))
    (by
      intro i e vs reg1 v0 v1 v2 v3 v4 r0 rest rest' _ _ _ hrs _
      have hv0 := hlen _ _ _ _ _ _ v0 (by rw [hrs]; simp)
      have hv1 := hlen _ _ _ _ _ _ v1 (by rw [hrs]; simp)
      rw [hfn] at hv0 hv1
      refine ⟨v0, v1, ?_, hv0, ?_, hv1⟩
      · simp +decide [assign, frequency_ne_append_suffix]
      · simp +decide [assign, period_ne_append_suffix])
  have hpos : 0 < hb.entries.length := by
    cases hent : hb.entries with
    | nil => simp [ResponseHistoryBuilder.getHistories, hent] at hne
    | cons e es => simp
  obtain ⟨f, pd, h1, h2, h3, h4⟩ := hP hpos
  exact ⟨_, f, pd, hrun.trans hex, h1, h2, h3, h4⟩

/-- Witness for C5, amended: the two histories `a`, `b` and `num_frequencies = 1`. -/
theorem run_frequency_length_witness :
    ∃ c f pd, run zeroUtils unitParameters twoHistories = .ok c ∧
      c.vectors "frequency" = some f ∧ f.length = unitParameters.num_frequencies ∧
      c.vectors "period" = some pd ∧ pd.length = unitParameters.num_frequencies :=
  run_frequency_length zeroUtils unitParameters twoHistories
    ⟨fun _ _ _ => le_refl 2, fun _ _ _ _ _ _ => le_refl 5⟩
    (by
      intro fs fe n a xi dt v hv
      simp only [zeroUtils, List.mem_replicate] at hv
      rw [hv.2, List.length_replicate])
    ⟨_, rfl⟩ (by decide)

/-- A successful `execute()` changes `vectors` only, and there only `frequency`,
`period` and vectors pointed to by `_spectrum`. -/
theorem execute_frame (mu : MastodonUtils R) (c c' : ResponseSpectraCalculator R)
    (h : execute mu c = .ok c') :
    ∃ vs, c' = { c with vectors := vs } ∧
      ∀ k, k ≠ "frequency" → k ≠ "period" → k ∉ c._spectrum → vs k = c.vectors k := by
  refine forLoop_preserves
    (fun s => ∃ vs, s = { c with vectors := vs } ∧
      ∀ k, k ≠ "frequency" → k ≠ "period" → k ∉ c._spectrum → vs k = c.vectors k)
    c._history_acc.length (executeStep mu) c ⟨c.vectors, rfl, fun _ _ _ _ => rfl⟩ ?_ c' h
  rintro i s s' ⟨vs, rfl, hvs⟩ hstep
  obtain ⟨v0, v1, v2, v3, v4, p0, p1, p2, hp0, hp1, hp2, rfl⟩ := executeStep_ok mu i _ s' hstep
  refine ⟨_, rfl, ?_⟩
  intro k hf hp hk
  have h0 : k ≠ p0 := fun h => hk (h ▸ hp0)
  have h1 : k ≠ p1 := fun h => hk (h ▸ hp1)
  have h2 : k ≠ p2 := fun h => hk (h ▸ hp2)
  simp only [assign, hf, hp, h0, h1, h2, if_false]
  exact hvs k hf hp hk

/-- Objects that differ only in the content of `frequency`, `period` and the vectors
pointed to by `_spectrum` are equal after `initialize()`. -/
theorem initializeVectors_congr (c : ResponseSpectraCalculator R) (vs : VectorStore R)
    (hvs : ∀ k, k ≠ "frequency" → k ≠ "period" → k ∉ c._spectrum → vs k = c.vectors k) :
    initializeVectors { c with vectors := vs } = initializeVectors c := by
  rw [initializeVectors_eq c, initializeVectors_eq { c with vectors := vs }]
  have hfun : (initializeVectors { c with vectors := vs }).vectors =
      (initializeVectors c).vectors := by
    funext k
    rw [initializeVectors_vectors, initializeVectors_vectors]
    by_cases hk : k = "frequency" ∨ k = "period" ∨ k ∈ c._spectrum
    · simp only [hk, if_true]
    · simp only [hk, if_false]
      simp only [not_or] at hk
      exact hvs k hk.1 hk.2.1 hk.2.2
  rw [hfun]

/-- C7: `initialize()` leaves `frequency`, `period` and every vector pointed to by
`_spectrum` empty; for every other prior content `vs` of those vectors, with the same
configuration and histories, `initialize()` followed by `execute()` gives the same
result; and running `initialize()` and `execute()` again on the result `c'` of a run
gives `c'` again. -/
theorem run_stateless (mu : MastodonUtils R) (c c' : ResponseSpectraCalculator R)
    (vs : VectorStore R)
    (hvs : ∀ k, k ≠ "frequency" → k ≠ "period" → k ∉ c._spectrum → vs k = c.vectors k)
    (hrun : execute mu (initializeVectors c) = .ok c') :
    ((initializeVectors c).vectors "frequency" = some [] ∧
      (initializeVectors c).vectors "period" = some [] ∧
      ∀ k ∈ c._spectrum, (initializeVectors c).vectors k = some []) ∧
    execute mu (initializeVectors { c with vectors := vs }) =
      execute mu (initializeVectors c) ∧
    execute mu (initializeVectors c') = .ok c' := by
  refine ⟨⟨?_, ?_, ?_⟩, ?_, ?_⟩
  · rw [initializeVectors_vectors]
    simp
  · rw [initializeVectors_vectors]
    simp
  · intro k hk
    rw [initializeVectors_vectors]
    simp [hk]
  · rw [initializeVectors_congr c vs hvs]
  · obtain ⟨vs', rfl, hvs'⟩ := execute_frame mu _ c' hrun
    have h1 : initializeVectors { initializeVectors c with vectors := vs' } =
        initializeVectors (initializeVectors c) := initializeVectors_congr _ vs' hvs'
    have h2 : initializeVectors (initializeVectors c) = initializeVectors c :=
      initializeVectors_congr c (initializeVectors c).vectors (by
        intro k hf hp hk
        rw [initializeVectors_vectors]
        simp [hf, hp, hk])
    rw [h1, h2]
    exact hrun

/-- Witness for C7: an object with one history `[5]` whose vectors all hold `[7]`
before the run, against the same object with `[9]` in `frequency`. -/
theorem run_stateless_witness :
    ((initializeVectors usedObject).vectors "frequency" = some [] ∧
      (initializeVectors usedObject).vectors "period" = some [] ∧
      ∀ k ∈ usedObject._spectrum, (initializeVectors usedObject).vectors k = some []) ∧
    execute echoUtils (initializeVectors { usedObject with
      vectors := fun k => if k = "frequency" then some [9] else usedObject.vectors k }) =
        execute echoUtils (initializeVectors usedObject) ∧
    execute echoUtils (initializeVectors usedObjectAfterRun) = .ok usedObjectAfterRun :=
  run_stateless echoUtils usedObject usedObjectAfterRun
    (fun k => if k = "frequency" then some [9] else usedObject.vectors k)
    (fun k hf _ _ => by simp [hf]) rfl

end ResponseSpectraCalculator

/-! ## Properties of IceMaterial -/

/-- C8: over the reals, with `AGlen > 0`, `nGlen >= 1` and `II_eps_min > 0`, for every
velocity gradient the viscosity computed by `computeQpProperties` satisfies
`0.0001 <= mu <= max(0.0001, 0.5 * AGlen^(-1/nGlen) * II_eps_min^(-(1 - 1/nGlen)/2))`:
the effective strain rate is at least `II_eps_min` when the negative power is
taken. -/
theorem IceMaterial.viscosity_bounds (AGlen nGlen rho II_eps_min : ℝ)
    (gx gy gz : RealGradient ℝ) (hA : 0 < AGlen) (hn : 1 ≤ nGlen) (hmin : 0 < II_eps_min) :
    0.0001 ≤ (IceMaterial.computeQpProperties (fun x y => x ^ y) AGlen nGlen rho II_eps_min
        gx gy gz).1 ∧
      (IceMaterial.computeQpProperties (fun x y => x ^ y) AGlen nGlen rho II_eps_min
        gx gy gz).1 ≤
        max 0.0001 (0.5 * AGlen ^ (-1 / nGlen) * II_eps_min ^ (-(1 - 1 / nGlen) / 2)) := by
  have hn0 : 0 < nGlen := lt_of_lt_of_le one_pos hn
  have hexp : -(1 - 1 / nGlen) / 2 ≤ 0 := by
    have h1 : 1 / nGlen ≤ 1 := by
      rw [div_le_one hn0]
      exact hn
    linarith
  have hAp : 0 < AGlen ^ (-1 / nGlen) := Real.rpow_pos_of_pos hA _
  simp only [IceMaterial.computeQpProperties]
  refine ⟨le_max_right _ _, ?_⟩
  rw [max_comm]
  apply max_le_max le_rfl
  apply mul_le_mul_of_nonneg_left _ (by positivity)
  apply Real.rpow_le_rpow_of_exponent_nonpos hmin _ hexp
  split_ifs with hlt
  · exact le_rfl
  · exact not_lt.1 hlt

/-- Witness for C8: `AGlen = 1`, `nGlen = 1`, `II_eps_min = 1` and the zero gradient. -/
theorem IceMaterial.viscosity_bounds_witness :
    0.0001 ≤ (IceMaterial.computeQpProperties (fun x y => x ^ y) (1 : ℝ) 1 917 1
        ⟨0, 0, 0⟩ ⟨0, 0, 0⟩ ⟨0, 0, 0⟩).1 ∧
      (IceMaterial.computeQpProperties (fun x y => x ^ y) (1 : ℝ) 1 917 1
        ⟨0, 0, 0⟩ ⟨0, 0, 0⟩ ⟨0, 0, 0⟩).1 ≤
        max 0.0001 (0.5 * (1 : ℝ) ^ (-1 / (1 : ℝ)) * (1 : ℝ) ^ (-(1 - 1 / (1 : ℝ)) / 2)) :=
  IceMaterial.viscosity_bounds 1 1 917 1 ⟨0, 0, 0⟩ ⟨0, 0, 0⟩ ⟨0, 0, 0⟩ one_pos le_rfl one_pos

end Diuca
